import Mathlib

/-!
Verification of the row normalization and validation pipeline of
`import_companies.py` (corporate-number CSV importer).

Python strings are modelled as `List Char` (`Str`); `None`-able values as
`Option Str`; raising `ValueError`/`KeyError`/`InvalidOperation` as the
`Except` monad.  Character classification (`str.isdigit`, `str.strip`,
`str.lower`) is modelled over the ASCII fragment, which is the fragment the
importer's data and the specification's examples exercise.
-/

namespace ImportCompanies

abbrev Str := List Char

instance {ε α : Type} [DecidableEq ε] [DecidableEq α] : DecidableEq (Except ε α) := fun x y =>
  match x, y with
  | .ok a, .ok b =>
    if h : a = b then .isTrue (by rw [h]) else .isFalse (by intro hc; cases hc; exact h rfl)
  | .error a, .error b =>
    if h : a = b then .isTrue (by rw [h]) else .isFalse (by intro hc; cases hc; exact h rfl)
  | .ok _, .error _ => .isFalse (by intro hc; cases hc)
  | .error _, .ok _ => .isFalse (by intro hc; cases hc)

/-- ASCII whitespace, as stripped by Python `str.strip()`
(space, tab, newline, carriage return, vertical tab, form feed). -/
def isSpaceChar (c : Char) : Bool :=
  c.toNat = 32 || c.toNat = 9 || c.toNat = 10 || c.toNat = 13 || c.toNat = 11 || c.toNat = 12

/-- `str.isdigit` on a single character (ASCII fragment). -/
def isDigitChar (c : Char) : Bool :=
  48 ≤ c.toNat && c.toNat ≤ 57

/-- Numeric value of a decimal digit character. -/
def digitVal (c : Char) : Nat := c.toNat - 48

/-- `str.lower` on a single character (ASCII fragment). -/
def toLowerChar (c : Char) : Char :=
  if 65 ≤ c.toNat && c.toNat ≤ 90 then Char.ofNat (c.toNat + 32) else c

/-- Strip characters satisfying `p` from both ends (Python `str.strip(chars)`). -/
def pyStripBy (p : Char → Bool) (s : Str) : Str :=
  ((s.dropWhile p).reverse.dropWhile p).reverse

/-- Python `str.strip()` (whitespace from both ends). -/
def pyStrip (s : Str) : Str := pyStripBy isSpaceChar s

/-- Digit characters of a decimal numeral, most significant first. -/
def digitToChar : Nat → Char
  | 0 => '0' | 1 => '1' | 2 => '2' | 3 => '3' | 4 => '4'
  | 5 => '5' | 6 => '6' | 7 => '7' | 8 => '8' | _ => '9'

/-- Fuel-driven rendering of a natural number in base 10. -/
def natDigitsAux : Nat → Nat → Str
  | 0, _ => []
  | fuel + 1, n =>
    if n < 10 then [digitToChar n]
    else natDigitsAux fuel (n / 10) ++ [digitToChar (n % 10)]

/-- Base-10 numeral of a natural number, e.g. `natDigits 120 = "120"`. -/
def natDigits (n : Nat) : Str := natDigitsAux (n + 1) n

/-- Value of a string of digit characters read most significant first. -/
def digitsToNat (s : Str) : Nat := s.foldl (fun a c => a * 10 + digitVal c) 0

/-- Python `str.zfill(width)`: left-pad with `'0'`, keeping a leading sign. -/
def zfill (width : Nat) (s : Str) : Str :=
  match s with
  | [] => List.replicate width '0'
  | c :: r =>
    if c = '+' || c = '-' then c :: (List.replicate (width - (r.length + 1)) '0' ++ r)
    else List.replicate (width - (r.length + 1)) '0' ++ (c :: r)

/-! ### `decimal.Decimal`: exact decimal parsing and fixed-point rendering

Model of the two `decimal` features the importer uses: the `Decimal(text)`
constructor (finite numerals only; the special values `Infinity`/`NaN`
contain no exponent marker so they never reach this code path) and
`format(d, "f")`.  Semantics checked against CPython: the constructor
ignores underscores anywhere in the literal and strips surrounding
whitespace; the coefficient drops leading zeros; `format(_, "f")` of a zero
coefficient with positive exponent is just `"0"`. -/

/-- A finite decimal value: sign, coefficient, and base-10 exponent. -/
structure Dec where
  neg : Bool
  coeff : Nat
  exp : Int
deriving DecidableEq, Repr

/-- Leading optional sign of a decimal literal. -/
def parseSign : Str → Bool × Str
  | [] => (false, [])
  | c :: r =>
    if c = '+' then (false, r)
    else if c = '-' then (true, r)
    else (false, c :: r)

/-- Split a string into its leading run of digits and the remainder. -/
def takeDigits (s : Str) : Str × Str :=
  (s.takeWhile isDigitChar, s.dropWhile isDigitChar)

/-- Optional exponent part of a decimal literal (after the coefficient). -/
def decParseExp : Str → Option Int
  | [] => some 0
  | c :: r =>
    if c = 'e' || c = 'E' then
      let sr := parseSign r
      let dr := takeDigits sr.2
      if dr.1 = [] || dr.2 ≠ [] then none
      else some (if sr.1 then -(digitsToNat dr.1 : Int) else (digitsToNat dr.1 : Int))
    else none

/-- Coefficient digits and fractional length of a decimal literal. -/
def decParseCoeff (s : Str) : Option (Str × Nat × Str) :=
  let ir := takeDigits s
  match ir.2 with
  | '.' :: r2 =>
    let fr := takeDigits r2
    if ir.1 = [] && fr.1 = [] then none
    else some (ir.1 ++ fr.1, (fr.1).length, fr.2)
  | _ => if ir.1 = [] then none else some (ir.1, 0, ir.2)

/-- `decimal.Decimal(text)` on a finite numeric literal; `none` models
`InvalidOperation`. -/
def decParse (s : Str) : Option Dec :=
  let t := pyStrip (s.filter (fun c => c ≠ '_'))
  let st := parseSign t
  match decParseCoeff st.2 with
  | none => none
  | some (digits, fracLen, rest) =>
    match decParseExp rest with
    | none => none
    | some e => some ⟨st.1, digitsToNat digits, e - (fracLen : Int)⟩

/-- `format(d, "f")`: fixed-point rendering with no exponent. -/
def formatF (d : Dec) : Str :=
  let ds := natDigits d.coeff
  let body :=
    if d.coeff = 0 then
      if d.exp < 0 then '0' :: '.' :: List.replicate (-d.exp).toNat '0' else ['0']
    else if 0 ≤ d.exp then ds ++ List.replicate d.exp.toNat '0'
    else
      let n := (-d.exp).toNat
      if n < ds.length then ds.take (ds.length - n) ++ '.' :: ds.drop (ds.length - n)
      else '0' :: '.' :: (List.replicate (n - ds.length) '0' ++ ds)
  if d.neg then '-' :: body else body

/-! ### Field transforms (`import_companies.py`, lines 40-110) -/

/-- `(raw_value or "").strip().replace("-", "")` from line 53. -/
def strippedText (raw_value : Option Str) : Str :=
  (pyStrip (raw_value.getD [])).filter (fun c => c ≠ '-')

/-- `normalize_corporate_number` (lines 52-67): strip whitespace, delete
hyphens, fail on empty; expand scientific notation through `Decimal` when an
exponent marker (`"e" in text.lower()`) is present, otherwise keep only
digit characters; zero-fill to 13 and require exactly 13 characters. -/
def normalize_corporate_number (raw_value : Option Str) : Except Str Str :=
  let text := strippedText raw_value
  if text = [] then .error ("corporate number is empty".data)
  else
    let step : Except Str Str :=
      if 'e' ∈ text.map toLowerChar then
        match decParse text with
        | none => .error (("invalid scientific notation corporate number: ".data) ++ text)
        | some d => .ok ((formatF d).filter (fun c => c ≠ '.'))
      else .ok (text.filter isDigitChar)
    match step with
    | .error e => .error e
    | .ok normalized0 =>
      let normalized := zfill 13 normalized0
      if normalized.length = 13 then .ok normalized
      else .error (("corporate number should be 13 digits, got ".data) ++ normalized)

/-- `True` exactly on the `Except.error` constructor (a raised exception). -/
def isErr {ε α : Type} : Except ε α → Bool
  | .error _ => true
  | .ok _ => false

/-! ### Dates: `datetime.strptime` over the four `DATE_PATTERNS`

`parse_date` (lines 40-49) tries the patterns `%Y-%m-%d`, `%Y/%m/%d`,
`%Y.%m.%d`, `%Y%m%d` in order.  CPython's `_strptime` compiles `%Y` to
exactly four digits and `%m`/`%d` to ordered regex alternations
(`1[0-2]|0[1-9]|[1-9]` and `3[0-1]|[1-2]\d|0[1-9]|[1-9]| [1-9]`), matches a
prefix with backtracking, requires the match to consume the whole string,
and finally validates the calendar date through the `datetime` constructor
(years 1-9999, proleptic Gregorian month lengths). -/

structure Date where
  year : Nat
  month : Nat
  day : Nat
deriving DecidableEq, Repr

def isLeap (y : Nat) : Bool := y % 4 = 0 && (y % 100 ≠ 0 || y % 400 = 0)

def daysInMonth (y m : Nat) : Nat :=
  if m = 2 then (if isLeap y then 29 else 28)
  else if m = 4 ∨ m = 6 ∨ m = 9 ∨ m = 11 then 30
  else 31

def dateValid (y m d : Nat) : Bool :=
  1 ≤ y && y ≤ 9999 && 1 ≤ m && m ≤ 12 && 1 ≤ d && d ≤ daysInMonth y m

/-- Exactly four digit characters (the regex compiled from `%Y`). -/
def read4Digits (s : Str) : Option (Nat × Str) :=
  match s with
  | a :: b :: c :: d :: r =>
    if isDigitChar a && isDigitChar b && isDigitChar c && isDigitChar d then
      some (((digitVal a * 10 + digitVal b) * 10 + digitVal c) * 10 + digitVal d, r)
    else none
  | _ => none

def charIn (c : Char) (lo hi : Nat) : Bool := lo ≤ c.toNat && c.toNat ≤ hi

/-- The regex alternation compiled from `%m`, in source order. -/
def monthAlts (s : Str) : List (Nat × Str) :=
  (match s with
   | c1 :: c2 :: r => if c1 = '1' && charIn c2 48 50 then [(10 + digitVal c2, r)] else []
   | _ => []) ++
  (match s with
   | c1 :: c2 :: r => if c1 = '0' && charIn c2 49 57 then [(digitVal c2, r)] else []
   | _ => []) ++
  (match s with
   | c1 :: r => if charIn c1 49 57 then [(digitVal c1, r)] else []
   | _ => [])

/-- The regex alternation compiled from `%d`, in source order. -/
def dayAlts (s : Str) : List (Nat × Str) :=
  (match s with
   | c1 :: c2 :: r => if c1 = '3' && charIn c2 48 49 then [(30 + digitVal c2, r)] else []
   | _ => []) ++
  (match s with
   | c1 :: c2 :: r =>
     if charIn c1 49 50 && isDigitChar c2 then [(digitVal c1 * 10 + digitVal c2, r)] else []
   | _ => []) ++
  (match s with
   | c1 :: c2 :: r => if c1 = '0' && charIn c2 49 57 then [(digitVal c2, r)] else []
   | _ => []) ++
  (match s with
   | c1 :: r => if charIn c1 49 57 then [(digitVal c1, r)] else []
   | _ => []) ++
  (match s with
   | c1 :: c2 :: r => if c1 = ' ' && charIn c2 49 57 then [(digitVal c2, r)] else []
   | _ => [])

/-- First alternative whose continuation succeeds (regex backtracking). -/
def firstSome {α β : Type} : List α → (α → Option β) → Option β
  | [], _ => none
  | a :: l, f =>
    match f a with
    | some b => some b
    | none => firstSome l f

def expectChar (c : Char) : Str → Option Str
  | [] => none
  | x :: r => if x = c then some r else none

/-- Literal separator between the date fields (`none` for `%Y%m%d`). -/
def sepStep (sep : Option Char) (s : Str) : Option Str :=
  match sep with
  | none => some s
  | some c => expectChar c s

/-- Leftmost regex match of one date pattern, with alternation backtracking
and the unconsumed suffix returned. -/
def matchYMD (sep : Option Char) (s : Str) : Option (Nat × Nat × Nat × Str) :=
  match read4Digits s with
  | none => none
  | some (y, s1) =>
    match sepStep sep s1 with
    | none => none
    | some s2 =>
      firstSome (monthAlts s2) (fun mr =>
        match sepStep sep mr.2 with
        | none => none
        | some s3 =>
          firstSome (dayAlts s3) (fun dr => some (y, mr.1, dr.1, dr.2)))

/-- `datetime.strptime(s, pattern).date()` for one pattern: the regex must
consume the whole string and the result must be a real calendar date. -/
def strptimeYMD (sep : Option Char) (s : Str) : Option Date :=
  match matchYMD sep s with
  | some (y, m, d, rest) => if rest = [] && dateValid y m d then some ⟨y, m, d⟩ else none
  | none => none

/-- `parse_date` (lines 40-49): empty input is an absent value; otherwise
the first pattern of `DATE_PATTERNS` that parses wins; if none do, raise. -/
def parse_date (value : Option Str) : Except Str (Option Date) :=
  let text := pyStrip (value.getD [])
  if text = [] then .ok none
  else
    match strptimeYMD (some '-') text with
    | some d => .ok (some d)
    | none =>
    match strptimeYMD (some '/') text with
    | some d => .ok (some d)
    | none =>
    match strptimeYMD (some '.') text with
    | some d => .ok (some d)
    | none =>
    match strptimeYMD none text with
    | some d => .ok (some d)
    | none => .error (("unrecognized date format ".data) ++ text)

/-- `strftime` two-digit zero-padded field (`%m`, `%d`). -/
def pad2 (n : Nat) : Str := [digitToChar (n / 10), digitToChar (n % 10)]

/-- `strftime` `%Y` for four-digit years. -/
def pad4 (n : Nat) : Str :=
  [digitToChar (n / 1000), digitToChar (n / 100 % 10), digitToChar (n / 10 % 10),
   digitToChar (n % 10)]

/-- A calendar date rendered in one of the four supported patterns. -/
def formatDate (sep : Option Char) (d : Date) : Str :=
  let s : Str := match sep with | none => [] | some c => [c]
  pad4 d.year ++ s ++ pad2 d.month ++ s ++ pad2 d.day

/-! ### Remaining field transforms and the column registry -/

/-- A typed cell value produced by a field transform (`None`, text, integer,
date or boolean). -/
inductive Value where
  | null : Value
  | str : Str → Value
  | int : Int → Value
  | date : Date → Value
  | bool : Bool → Value
deriving DecidableEq, Repr

/-- Digits of a Python `int` literal after the first: underscores allowed
only between digits. -/
def intDigitsAux : Str → Nat → Option Nat
  | [], acc => some acc
  | '_' :: c :: r, acc =>
    if isDigitChar c then intDigitsAux r (acc * 10 + digitVal c) else none
  | c :: r, acc =>
    if isDigitChar c then intDigitsAux r (acc * 10 + digitVal c) else none

def intStart : Str → Option Nat
  | [] => none
  | c :: r => if isDigitChar c then intDigitsAux r (digitVal c) else none

/-- Python `int(text)` on base-10 text: optional surrounding whitespace and
sign, then digits with embedded underscores. -/
def pyParseInt (s : Str) : Option Int :=
  match pyStrip s with
  | [] => none
  | c :: r =>
    if c = '+' then (intStart r).map (fun n => (n : Int))
    else if c = '-' then (intStart r).map (fun n => -(n : Int))
    else (intStart (c :: r)).map (fun n => (n : Int))

/-- `to_int` (lines 84-91). -/
def to_int (value : Option Str) : Except Str (Option Int) :=
  let text := pyStrip (value.getD [])
  if text = [] then .ok none
  else
    match pyParseInt text with
    | some n => .ok (some n)
    | none => .error (("expected integer, got ".data) ++ text)

/-- `to_bool_flag` (lines 94-102). -/
def to_bool_flag (value : Option Str) : Except Str (Option Bool) :=
  let text := (pyStrip (value.getD [])).map toLowerChar
  if text = [] then .ok none
  else if text = ("1".data) ∨ text = ("true".data) ∨ text = ("t".data) ∨ text = ("yes".data) then
    .ok (some true)
  else if text = ("0".data) ∨ text = ("false".data) ∨ text = ("f".data) ∨ text = ("no".data) then
    .ok (some false)
  else .error (("expected boolean flag, got ".data) ++ text)

/-- `normalize_postal_code` (lines 105-110): never fails. -/
def normalize_postal_code (value : Option Str) : Except Str (Option Str) :=
  let text := pyStrip (value.getD [])
  if text = [] then .ok none
  else
    let digits := text.filter isDigitChar
    .ok (if digits = [] then none else some digits)

/-- `default_transform` (lines 77-81): trims; empty becomes absent. -/
def default_transform (value : Option Str) : Except Str (Option Str) :=
  match value with
  | none => .ok none
  | some s =>
    let text := pyStrip s
    .ok (if text = [] then none else some text)

/-- `normalize_optional_corporate_number` (lines 70-74). -/
def normalize_optional_corporate_number (raw_value : Option Str) : Except Str (Option Str) :=
  let text := pyStrip (raw_value.getD [])
  if text = [] then .ok none
  else (normalize_corporate_number (some text)).map some

def optStrValue : Option Str → Value
  | none => .null
  | some s => .str s

/-- The registry transforms, wrapped into the common `Value` codomain. -/
def tDefault (v : Option Str) : Except Str Value := (default_transform v).map optStrValue

def tInt (v : Option Str) : Except Str Value :=
  (to_int v).map (fun o => match o with | none => .null | some n => .int n)

def tBool (v : Option Str) : Except Str Value :=
  (to_bool_flag v).map (fun o => match o with | none => .null | some b => .bool b)

def tPostal (v : Option Str) : Except Str Value := (normalize_postal_code v).map optStrValue

def tCorp (v : Option Str) : Except Str Value := (normalize_corporate_number v).map .str

def tOptCorp (v : Option Str) : Except Str Value :=
  (normalize_optional_corporate_number v).map optStrValue

def tDate (v : Option Str) : Except Str Value :=
  (parse_date v).map (fun o => match o with | none => .null | some d => .date d)

/-- One entry of the `MEIREI_COLUMNS` registry (lines 113-120). -/
structure ColumnDefinition where
  csv_field : Str
  db_column : Str
  pg_type : Str
  description : Str
  aliases : List Str
  transform : Option Str → Except Str Value

/-- The `MEIREI_COLUMNS` registry (lines 123-343): the full declared
schema, in declaration order. -/
def MEIREI_COLUMNS : List ColumnDefinition := [
  { csv_field := "sequenceNumber".data, db_column := "sequence_number".data,
    pg_type := "BIGINT".data,
    description := "命令規則別表 項7: 順序番号".data,
    aliases := ["順序番号".data], transform := tInt },
  { csv_field := "corporateNumber".data, db_column := "corporate_number".data,
    pg_type := "CHAR(13)".data,
    description := "命令規則別表 項8: 法人番号".data,
    aliases := ["法人番号".data], transform := tCorp },
  { csv_field := "process".data, db_column := "process".data,
    pg_type := "TEXT".data,
    description := "命令規則別表 項9: 処理区分".data,
    aliases := ["処理区分".data], transform := tDefault },
  { csv_field := "correct".data, db_column := "correct".data,
    pg_type := "TEXT".data,
    description := "命令規則別表 項10: 訂正区分".data,
    aliases := ["訂正区分".data], transform := tDefault },
  { csv_field := "updateDate".data, db_column := "update_date".data,
    pg_type := "DATE".data,
    description := "命令規則別表 項11: 更新年月日".data,
    aliases := ["更新年月日".data], transform := tDate },
  { csv_field := "changeDate".data, db_column := "change_date".data,
    pg_type := "DATE".data,
    description := "命令規則別表 項12: 変更年月日".data,
    aliases := ["変更年月日".data], transform := tDate },
  { csv_field := "name".data, db_column := "name".data,
    pg_type := "TEXT".data,
    description := "命令規則別表 項13: 商号又は名称".data,
    aliases := ["商号又は名称".data], transform := tDefault },
  { csv_field := "nameImageId".data, db_column := "name_image_id".data,
    pg_type := "TEXT".data,
    description := "命令規則別表 項14: 商号又は名称イメージID".data,
    aliases := ["商号又は名称イメージID".data], transform := tDefault },
  { csv_field := "kind".data, db_column := "kind".data,
    pg_type := "TEXT".data,
    description := "命令規則別表 項15: 法人種別".data,
    aliases := ["法人種別".data, "法人種別コード".data], transform := tDefault },
  { csv_field := "prefectureName".data, db_column := "prefecture_name".data,
    pg_type := "TEXT".data,
    description := "命令規則別表 項16: 国内所在地（都道府県）".data,
    aliases := ["都道府県名".data, "国内所在地（都道府県）".data], transform := tDefault },
  { csv_field := "cityName".data, db_column := "city_name".data,
    pg_type := "TEXT".data,
    description := "命令規則別表 項17: 国内所在地（市区町村）".data,
    aliases := ["市区町村名".data, "国内所在地（市区町村）".data], transform := tDefault },
  { csv_field := "streetNumber".data, db_column := "street_number".data,
    pg_type := "TEXT".data,
    description := "命令規則別表 項18: 国内所在地（丁目番地等）".data,
    aliases := ["丁目番地等".data, "国内所在地（丁目番地等）".data], transform := tDefault },
  { csv_field := "addressImageId".data, db_column := "address_image_id".data,
    pg_type := "TEXT".data,
    description := "命令規則別表 項19: 所在地イメージID".data,
    aliases := ["所在地イメージID".data], transform := tDefault },
  { csv_field := "prefectureCode".data, db_column := "prefecture_code".data,
    pg_type := "TEXT".data,
    description := "命令規則別表 項20: 都道府県コード".data,
    aliases := ["都道府県コード".data], transform := tDefault },
  { csv_field := "cityCode".data, db_column := "city_code".data,
    pg_type := "TEXT".data,
    description := "命令規則別表 項21: 市区町村コード".data,
    aliases := ["市区町村コード".data], transform := tDefault },
  { csv_field := "postCode".data, db_column := "post_code".data,
    pg_type := "TEXT".data,
    description := "命令規則別表 項22: 郵便番号".data,
    aliases := ["郵便番号".data], transform := tPostal },
  { csv_field := "addressOutside".data, db_column := "address_outside".data,
    pg_type := "TEXT".data,
    description := "命令規則別表 項23: 国外所在地".data,
    aliases := ["国外所在地".data], transform := tDefault },
  { csv_field := "addressOutsideImageId".data, db_column := "address_outside_image_id".data,
    pg_type := "TEXT".data,
    description := "命令規則別表 項24: 国外所在地イメージID".data,
    aliases := ["国外所在地イメージID".data], transform := tDefault },
  { csv_field := "closeDate".data, db_column := "close_date".data,
    pg_type := "DATE".data,
    description := "命令規則別表 項25: 登記記録の閉鎖等年月日".data,
    aliases := ["登記記録の閉鎖等年月日".data], transform := tDate },
  { csv_field := "closeCause".data, db_column := "close_cause".data,
    pg_type := "TEXT".data,
    description := "命令規則別表 項26: 登記記録の閉鎖等の事由".data,
    aliases := ["登記記録の閉鎖等の事由".data], transform := tDefault },
  { csv_field := "successorCorporateNumber".data, db_column := "successor_corporate_number".data,
    pg_type := "CHAR(13)".data,
    description := "命令規則別表 項27: 承継先法人番号".data,
    aliases := ["承継先法人番号".data], transform := tOptCorp },
  { csv_field := "changeCause".data, db_column := "change_cause".data,
    pg_type := "TEXT".data,
    description := "命令規則別表 項28: 変更事由".data,
    aliases := ["変更事由".data], transform := tDefault },
  { csv_field := "assignmentDate".data, db_column := "assignment_date".data,
    pg_type := "DATE".data,
    description := "命令規則別表 項29: 法人番号指定年月日".data,
    aliases := ["法人番号指定年月日".data], transform := tDate },
  { csv_field := "latest".data, db_column := "latest".data,
    pg_type := "BOOLEAN".data,
    description := "命令規則別表 項30: 最新履歴等".data,
    aliases := ["最新履歴等".data], transform := tBool },
  { csv_field := "enName".data, db_column := "en_name".data,
    pg_type := "TEXT".data,
    description := "命令規則別表 項31: 商号又は名称（英語表記）".data,
    aliases := ["商号又は名称（英語表記）".data], transform := tDefault },
  { csv_field := "enPrefectureName".data, db_column := "en_prefecture_name".data,
    pg_type := "TEXT".data,
    description := "命令規則別表 項32: 都道府県名（英語表記）".data,
    aliases := ["都道府県名（英語表記）".data], transform := tDefault },
  { csv_field := "enCityName".data, db_column := "en_city_name".data,
    pg_type := "TEXT".data,
    description := "命令規則別表 項33: 市区町村名（英語表記）".data,
    aliases := ["市区町村名（英語表記）".data], transform := tDefault },
  { csv_field := "enAddressOutside".data, db_column := "en_address_outside".data,
    pg_type := "TEXT".data,
    description := "命令規則別表 項34: 国外所在地（英語表記）".data,
    aliases := ["国外所在地（英語表記）".data], transform := tDefault },
  { csv_field := "furigana".data, db_column := "furigana".data,
    pg_type := "TEXT".data,
    description := "命令規則別表 項35: フリガナ".data,
    aliases := ["フリガナ".data], transform := tDefault },
  { csv_field := "hihyoji".data, db_column := "hihyoji".data,
    pg_type := "TEXT".data,
    description := "命令規則別表 項36: 非表示理由".data,
    aliases := ["非表示理由".data, "備考".data], transform := tDefault }]

/-- `COLUMN_NAME_LOOKUP` (lines 345-349): alias-to-canonical-key pairs in
insertion order (each alias also in lowercase); a later pair overwrites an
earlier one, as in a Python dict. -/
def COLUMN_NAME_LOOKUP : List (Str × Str) :=
  MEIREI_COLUMNS.flatMap (fun c =>
    (c.csv_field :: c.aliases).flatMap (fun a =>
      [(a, c.csv_field), (a.map toLowerChar, c.csv_field)]))

/-- `ROW_FIELDNAMES` (line 351). -/
def ROW_FIELDNAMES : List Str := MEIREI_COLUMNS.map (fun c => c.csv_field)

/-- Python `dict` lookup over insertion-ordered pairs: the last binding of a
key wins. -/
def dictGet (pairs : List (Str × Str)) (k : Str) : Option Str :=
  (pairs.reverse.find? (fun p => p.1 == k)).map (fun p => p.2)

/-- `COLUMN_NAME_LOOKUP.get(k)` followed by Python truthiness (`if mapped:`). -/
def truthyGet (pairs : List (Str × Str)) (k : Str) : Option Str :=
  match dictGet pairs k with
  | some v => if v = [] then none else some v
  | none => none

/-- `resolve_column_key` (lines 354-364): strip, exact lookup, then
lowercase lookup, else raise `KeyError`. -/
def resolve_column_key (column_name : Str) : Except Str Str :=
  let key := pyStrip column_name
  if key = [] then .error ("column name is empty".data)
  else
    match truthyGet COLUMN_NAME_LOOKUP key with
    | some m => .ok m
    | none =>
      match truthyGet COLUMN_NAME_LOOKUP (key.map toLowerChar) with
      | some m => .ok m
      | none => .error (("unknown column ".data) ++ column_name)

/-! ### Header detection, rows, filtering, record building -/

/-- Python `str.isdigit()`: non-empty and all digits. -/
def pyIsDigit (s : Str) : Bool := s ≠ [] && s.all isDigitChar

/-- `first_row[0].lstrip(BOM).strip().strip(QUOTE)` from line 370. -/
def cleanFirstCell (c0 : Str) : Str :=
  pyStripBy (fun c => c = '\"') (pyStrip (c0.dropWhile (fun c => c.toNat = 65279)))

/-- `row_looks_like_header` (lines 367-373). -/
def row_looks_like_header (first_row : List Str) : Bool :=
  match first_row with
  | [] => false
  | c0 :: _ =>
    let first_cell := cleanFirstCell c0
    if first_cell = [] then false
    else !(pyIsDigit first_cell)

/-- Modelled from the spec (claim C5's wording): treat the file as having a
header row exactly when the cleaned first cell is empty or is not purely
numeric. -/
def specHeaderPolicy (first_row : List Str) : Bool :=
  match first_row with
  | [] => false
  | c0 :: _ =>
    let first_cell := cleanFirstCell c0
    first_cell = [] || !(pyIsDigit first_cell)

/-- A normalized row: canonical field key to optional raw text. -/
def Row := List (Str × Option Str)

/-- Python `row.get(key)` where stored values may themselves be `None`. -/
def rowGet (row : Row) (k : Str) : Option Str :=
  match List.lookup k row with
  | some v => v
  | none => none

/-- `(row.get(key) or "")`. -/
def rowGetStr (row : Row) (k : Str) : Str := (rowGet row k).getD []

/-- `row_is_general_corporation` (lines 431-441). -/
def row_is_general_corporation (row : Row) (type_key : Str) (valid_codes : List Str) : Bool :=
  let corp_type := pyStrip (rowGetStr row type_key)
  if corp_type = [] then false
  else
    let digits := corp_type.filter isDigitChar
    let corp_code := if 3 ≤ digits.length then digits.take 3 else corp_type
    valid_codes.contains corp_code

/-- The per-row transform loop of `prepare_records` (lines 499-516): apply
each column transform in declared order, stopping at the first failure. -/
def transformAll : List ColumnDefinition → Row → Except Str (List Value)
  | [], _ => .ok []
  | c :: rest, row =>
    match c.transform (rowGet row c.csv_field) with
    | .error e => .error e
    | .ok v =>
      match transformAll rest row with
      | .error e => .error e
      | .ok vs => .ok (v :: vs)

/-- A full record for one row, or `none` when any transform failed and the
row is skipped (lines 505-518). -/
def buildRecord (cols : List ColumnDefinition) (row : Row) : Option (List Value) :=
  (transformAll cols row).toOption

/-- `{code.strip() for code in type_codes if code.strip()}` (line 469). -/
def allowedCodes (type_codes : List Str) : List Str :=
  (type_codes.map pyStrip).filter (fun c => c ≠ [])

/-- `prepare_records` (lines 460-519): resolve the three configured column
names (each failure is fatal), then filter rows by type code (skipped
entirely when the accepted set is empty) and build complete records,
dropping any row whose transforms fail. -/
def prepare_records (rows : List Row) (type_column : Str) (type_codes : List Str)
    (corporate_number_column name_column : Str) : Except Str (List (List Value)) :=
  let allowed := allowedCodes type_codes
  match resolve_column_key type_column with
  | .error _ => .error ("general-type-column is not defined in 命令規則項目".data)
  | .ok type_key =>
  match resolve_column_key corporate_number_column with
  | .error _ => .error ("corporate-number-column is not defined in 命令規則項目".data)
  | .ok _corporate_key =>
  match resolve_column_key name_column with
  | .error _ => .error ("name-column is not defined in 命令規則項目".data)
  | .ok _name_key =>
    .ok (rows.filterMap (fun row =>
      if allowed ≠ [] && !(row_is_general_corporation row type_key allowed) then none
      else buildRecord MEIREI_COLUMNS row))

/-! ### The batch upserter (`insert_records`, lines 544-578)

The store is abstract: `committed` is the durable table content and
`pending` the uncommitted work of the current transaction.  psycopg2
semantics: statements executed through a cursor join the connection's
single open transaction; `with conn:` commits once on normal exit and rolls
back on an exception; the `except` handler additionally calls
`conn.rollback()` before re-raising.  A failure oracle indexed by flush
ordinal stands in for `DatabaseError`. -/

structure DBState (α : Type) where
  committed : List α
  pending : List α
deriving DecidableEq, Repr

def execute_batch {α : Type} (fails : Nat → Bool) (flushIndex : Nat) (batch : List α)
    (db : DBState α) : Except Unit (DBState α) :=
  if fails flushIndex then .error ()
  else .ok { committed := db.committed, pending := db.pending ++ batch }

def rollback {α : Type} (db : DBState α) : DBState α :=
  { committed := db.committed, pending := [] }

def commit {α : Type} (db : DBState α) : DBState α :=
  { committed := db.committed ++ db.pending, pending := [] }

/-- The record loop of `insert_records`: accumulate a batch, flush when it
reaches the batch size; a flush failure rolls back and re-raises. -/
def insertLoop {α : Type} (fails : Nat → Bool) (batch_size : Nat) :
    List α → List α → Nat → Nat → DBState α →
    Except (DBState α) (DBState α × List α × Nat × Nat)
  | [], batch, idx, total, db => .ok (db, batch, idx, total)
  | r :: rest, batch, idx, total, db =>
    let batch2 := batch ++ [r]
    if batch_size ≤ batch2.length then
      match execute_batch fails idx batch2 db with
      | .error _ => .error (rollback db)
      | .ok db2 => insertLoop fails batch_size rest [] (idx + 1) (total + batch2.length) db2
    else insertLoop fails batch_size rest batch2 idx total db

/-- `insert_records`: the loop, the trailing partial batch, and the single
surrounding transaction (`with conn:`) committed only at the end; on error
the exception propagates after rollback. -/
def insert_records {α : Type} (fails : Nat → Bool) (batch_size : Nat) (records : List α)
    (db : DBState α) : Except (DBState α) (DBState α × Nat) :=
  match insertLoop fails batch_size records [] 0 0 db with
  | .error db2 => .error (rollback db2)
  | .ok (db2, batch, idx, total) =>
    if batch.isEmpty then .ok (commit db2, total)
    else
      match execute_batch fails idx batch db2 with
      | .error _ => .error (rollback (rollback db2))
      | .ok db3 => .ok (commit db3, total + batch.length)

/-! ### Character-class and strip lemmas -/

theorem isDigitChar_iff (c : Char) : isDigitChar c = true ↔ 48 ≤ c.toNat ∧ c.toNat ≤ 57 := by
  simp [isDigitChar]

theorem isSpaceChar_of_digit (c : Char) (h : isDigitChar c = true) : isSpaceChar c = false := by
  rw [isDigitChar_iff] at h
  simp only [isSpaceChar, Bool.or_eq_false_iff, decide_eq_false_iff_not]
  omega

theorem toLowerChar_of_lt (c : Char) (h : c.toNat < 65) : toLowerChar c = c := by
  unfold toLowerChar
  have hc : (65 ≤ c.toNat && c.toNat ≤ 90) = false := by
    simp only [Bool.and_eq_false_iff, decide_eq_false_iff_not]
    omega
  rw [hc]
  rfl

theorem e_not_mem_map_toLower (s : Str) (h : ∀ c ∈ s, isDigitChar c = true) :
    'e' ∉ s.map toLowerChar := by
  intro hmem
  rcases List.mem_map.mp hmem with ⟨c, hc, heq⟩
  have hd := (isDigitChar_iff c).mp (h c hc)
  rw [toLowerChar_of_lt c (by omega)] at heq
  have h101 : c.toNat = 101 := by rw [heq]; rfl
  omega

theorem dropWhile_append_all (p : Char → Bool) (w t : Str) (h : ∀ c ∈ w, p c = true) :
    (w ++ t).dropWhile p = t.dropWhile p := by
  induction w with
  | nil => rfl
  | cons a l ih =>
    simp only [List.cons_append, List.dropWhile_cons, h a (by simp)]
    exact ih (fun c hc => h c (by simp [hc]))

theorem dropWhile_all (p : Char → Bool) (w : Str) (h : ∀ c ∈ w, p c = true) :
    w.dropWhile p = [] := by
  induction w with
  | nil => rfl
  | cons a l ih =>
    simp only [List.dropWhile_cons, h a (by simp)]
    exact ih (fun c hc => h c (by simp [hc]))

theorem dropWhile_eq_self_of_not (p : Char → Bool) (t : Str) (h : ∀ c ∈ t, p c = false) :
    t.dropWhile p = t := by
  cases t with
  | nil => rfl
  | cons a l => simp [List.dropWhile_cons, h a (by simp)]

theorem pyStripBy_sandwich (p : Char → Bool) (w1 body w2 : Str)
    (h1 : ∀ c ∈ w1, p c = true) (h2 : ∀ c ∈ w2, p c = true)
    (hb : ∀ c ∈ body, p c = false) :
    pyStripBy p (w1 ++ body ++ w2) = body := by
  unfold pyStripBy
  rw [List.append_assoc, dropWhile_append_all p w1 (body ++ w2) h1]
  rcases body with _ | ⟨a, l⟩
  · rw [List.nil_append, dropWhile_all p w2 h2]
    rfl
  · have hstep : ((a :: l) ++ w2).dropWhile p = (a :: l) ++ w2 := by
      simp [List.dropWhile_cons, hb a (by simp)]
    rw [hstep, List.reverse_append,
      dropWhile_append_all p w2.reverse (a :: l).reverse (fun c hc => h2 c (List.mem_reverse.mp hc)),
      dropWhile_eq_self_of_not p (a :: l).reverse (fun c hc => hb c (List.mem_reverse.mp hc)),
      List.reverse_reverse]

theorem pyStripBy_eq_self (p : Char → Bool) (s : Str) (h : ∀ c ∈ s, p c = false) :
    pyStripBy p s = s := by
  have hs := pyStripBy_sandwich p [] s [] (by simp) (by simp) h
  simpa using hs

theorem mem_pyStripBy (p : Char → Bool) (s : Str) (c : Char) (h : c ∈ pyStripBy p s) : c ∈ s := by
  unfold pyStripBy at h
  rw [List.mem_reverse] at h
  have h2 : c ∈ (s.dropWhile p).reverse := (List.dropWhile_sublist p).subset h
  rw [List.mem_reverse] at h2
  exact (List.dropWhile_sublist p).subset h2

theorem digitToChar_digit (n : Nat) : isDigitChar (digitToChar n) = true := by
  rcases n with _ | _ | _ | _ | _ | _ | _ | _ | _ | n <;> rfl

theorem natDigitsAux_digits (fuel : Nat) : ∀ (n : Nat) (c : Char),
    c ∈ natDigitsAux fuel n → isDigitChar c = true := by
  induction fuel with
  | zero => intro n c hc; simp [natDigitsAux] at hc
  | succ fuel ih =>
    intro n c hc
    unfold natDigitsAux at hc
    by_cases h : n < 10
    · rw [if_pos h] at hc
      simp only [List.mem_singleton] at hc
      rw [hc]
      exact digitToChar_digit n
    · rw [if_neg h] at hc
      rcases List.mem_append.mp hc with h1 | h1
      · exact ih (n / 10) c h1
      · simp only [List.mem_singleton] at h1
        rw [h1]
        exact digitToChar_digit (n % 10)

theorem natDigits_digits (n : Nat) (c : Char) (hc : c ∈ natDigits n) : isDigitChar c = true :=
  natDigitsAux_digits (n + 1) n c hc

theorem formatF_chars (d : Dec) (hneg : d.neg = false) (c : Char) (hc : c ∈ formatF d) :
    isDigitChar c = true ∨ c = '.' := by
  unfold formatF at hc
  rw [hneg] at hc
  simp only [Bool.false_eq_true, if_false] at hc
  by_cases h0 : d.coeff = 0
  · rw [if_pos h0] at hc
    by_cases he : d.exp < 0
    · rw [if_pos he] at hc
      rcases hc with _ | ⟨_, hc⟩
      · left; rfl
      · rcases hc with _ | ⟨_, hc⟩
        · right; rfl
        · left
          rw [List.eq_of_mem_replicate hc]
          rfl
    · rw [if_neg he] at hc
      simp only [List.mem_singleton] at hc
      left; rw [hc]; rfl
  · rw [if_neg h0] at hc
    by_cases he : 0 ≤ d.exp
    · rw [if_pos he] at hc
      rcases List.mem_append.mp hc with h1 | h1
      · exact Or.inl (natDigits_digits d.coeff c h1)
      · left
        rw [List.eq_of_mem_replicate h1]
        rfl
    · rw [if_neg he] at hc
      by_cases hn : (-d.exp).toNat < (natDigits d.coeff).length
      · rw [if_pos hn] at hc
        rcases List.mem_append.mp hc with h1 | h1
        · exact Or.inl (natDigits_digits d.coeff c (List.take_subset _ _ h1))
        · rcases h1 with _ | ⟨_, h1⟩
          · right; rfl
          · exact Or.inl (natDigits_digits d.coeff c (List.drop_subset _ _ h1))
      · rw [if_neg hn] at hc
        rcases hc with _ | ⟨_, hc⟩
        · left; rfl
        · rcases hc with _ | ⟨_, hc⟩
          · right; rfl
          · rcases List.mem_append.mp hc with h1 | h1
            · left
              rw [List.eq_of_mem_replicate h1]
              rfl
            · exact Or.inl (natDigits_digits d.coeff c h1)

theorem zfill_of_digits (w : Nat) (s : Str) (hne : s ≠ []) (h : ∀ c ∈ s, isDigitChar c = true) :
    zfill w s = List.replicate (w - s.length) '0' ++ s := by
  rcases s with _ | ⟨c, r⟩
  · exact absurd rfl hne
  · have hc := (isDigitChar_iff c).mp (h c (by simp))
    have hplus : c ≠ '+' := by
      intro he
      have : c.toNat = 43 := by rw [he]; rfl
      omega
    have hminus : c ≠ '-' := by
      intro he
      have : c.toNat = 45 := by rw [he]; rfl
      omega
    simp [zfill, hplus, hminus]

theorem mem_zfill_digits (w : Nat) (s : Str) (h : ∀ c ∈ s, isDigitChar c = true) :
    ∀ c ∈ zfill w s, isDigitChar c = true := by
  intro c hc
  rcases s with _ | ⟨a, r⟩
  · unfold zfill at hc
    rw [List.eq_of_mem_replicate hc]
    rfl
  · rw [zfill_of_digits w (a :: r) (by simp) h] at hc
    rcases List.mem_append.mp hc with h1 | h1
    · rw [List.eq_of_mem_replicate h1]
      rfl
    · exact h c h1

theorem parseSign_fst_false (s : Str) (h : '-' ∉ s) : (parseSign s).1 = false := by
  rcases s with _ | ⟨c, r⟩
  · rfl
  · have hm : c ≠ '-' := fun he => h (by rw [he]; exact List.mem_cons_self _ _)
    by_cases hp : c = '+'
    · simp [parseSign, hp]
    · simp [parseSign, hp, hm]

theorem decParse_neg_false (s : Str) (hs : '-' ∉ s) (d : Dec) (h : decParse s = some d) :
    d.neg = false := by
  unfold decParse at h
  simp only [] at h
  have hmem : '-' ∉ pyStrip (s.filter (fun c => c ≠ '_')) := fun hc =>
    hs (List.mem_of_mem_filter (mem_pyStripBy isSpaceChar (s.filter (fun c => c ≠ '_')) '-' hc))
  have hps := parseSign_fst_false (pyStrip (s.filter (fun c => c ≠ '_'))) hmem
  split at h
  · exact absurd h (by simp)
  · split at h
    · exact absurd h (by simp)
    · rw [Option.some_inj] at h
      rw [← h]
      exact hps

theorem hyphen_not_mem_strippedText (v : Option Str) : '-' ∉ strippedText v := by
  intro hc
  have := List.of_mem_filter hc
  simp at this

/-- Any successful result of the corporate-number transform is a string of
exactly 13 decimal digit characters. -/
theorem normalize_ok_shape (v : Option Str) (r : Str)
    (h : normalize_corporate_number v = .ok r) :
    r.length = 13 ∧ ∀ c ∈ r, isDigitChar c = true := by
  unfold normalize_corporate_number at h
  simp only [] at h
  split at h
  · exact absurd h (by simp)
  · split at h
    next n0 heq =>
      exact absurd h (by simp)
    next n0 heq =>
      split at h
      next hlen =>
        rw [Except.ok.injEq] at h
        subst h
        refine ⟨hlen, ?_⟩
        split at heq
        · split at heq
          · exact absurd heq (by simp)
          next d hd =>
            rw [Except.ok.injEq] at heq
            subst heq
            apply mem_zfill_digits
            intro c hc
            have hmem := List.mem_of_mem_filter hc
            have hne := List.of_mem_filter hc
            have hneg := decParse_neg_false _ (hyphen_not_mem_strippedText v) d hd
            rcases formatF_chars d hneg c hmem with h1 | h1
            · exact h1
            · rw [h1] at hne
              simp at hne
        · rw [Except.ok.injEq] at heq
          subst heq
          apply mem_zfill_digits
          intro c hc
          exact List.of_mem_filter hc
      · exact absurd h (by simp)

theorem digit_ne_char (c : Char) (h : isDigitChar c = true) (d : Char)
    (hd : d.toNat < 48 ∨ 57 < d.toNat) : c ≠ d := by
  intro he
  have hc := (isDigitChar_iff c).mp h
  rw [he] at hc
  omega

theorem takeDigits_of_none (s : Str) (h : ∀ c ∈ s, isDigitChar c = false) :
    takeDigits s = ([], s) := by
  cases s with
  | nil => rfl
  | cons a l =>
    simp [takeDigits, List.takeWhile_cons, List.dropWhile_cons, h a (by simp)]

theorem parseSign_snd_subset (s : Str) (c : Char) (h : c ∈ (parseSign s).2) : c ∈ s := by
  rcases s with _ | ⟨a, r⟩
  · simp [parseSign] at h
  · by_cases hp : a = '+'
    · rw [show parseSign (a :: r) = (false, r) from by simp [parseSign, hp]] at h
      exact List.mem_cons_of_mem a h
    · by_cases hm : a = '-'
      · rw [show parseSign (a :: r) = (true, r) from by simp [parseSign, hp, hm]] at h
        exact List.mem_cons_of_mem a h
      · rw [show parseSign (a :: r) = (false, a :: r) from by simp [parseSign, hp, hm]] at h
        exact h

theorem decParseCoeff_none_of_no_digit (s : Str) (h : ∀ c ∈ s, isDigitChar c = false) :
    decParseCoeff s = none := by
  unfold decParseCoeff
  simp only []
  rw [takeDigits_of_none s h]
  rcases s with _ | ⟨a, r⟩
  · rfl
  · by_cases hdot : a = '.'
    · subst hdot
      simp only []
      rw [takeDigits_of_none r (fun c hc => h c (List.mem_cons_of_mem _ hc))]
      rfl
    · have : ∀ b r2, a :: r = '.' :: r2 → b ∈ ([] : Str) := by
        intro b r2 he
        exact absurd (List.cons_eq_cons.mp he).1 hdot
      cases ha : a
      simp only []
      split
      next heq => exact absurd (List.cons_eq_cons.mp heq).1 (by rw [← ha] at *; exact hdot)
      next => rfl

theorem decParse_none_of_no_digit (s : Str) (h : ∀ c ∈ s, isDigitChar c = false) :
    decParse s = none := by
  have hsub : ∀ c ∈ pyStrip (s.filter (fun c => c ≠ '_')), isDigitChar c = false :=
    fun c hc => h c (List.mem_of_mem_filter (mem_pyStripBy isSpaceChar _ c hc))
  unfold decParse
  simp only []
  rw [decParseCoeff_none_of_no_digit _ (fun c hc => hsub c (parseSign_snd_subset _ c hc))]

/-! ### Claims C1, C2, C7, C10 about the corporate-number transform -/

/-- Claim C1, counterexample: the all-letter input "xyz" has stripped digit
count 0, yet `normalize_corporate_number` does not fail: stripping
non-digits leaves the empty string, and `zfill(13)` pads it to the accepted
13-character string "0000000000000". -/
theorem C1_counterexample :
    ("xyz".data ≠ ([] : Str)) ∧
    ((strippedText (some ("xyz".data))).filter isDigitChar).length = 0 ∧
    normalize_corporate_number (some ("xyz".data)) = .ok (List.replicate 13 '0') := by
  decide

/-- Claim C1, amended: on input whose stripped digit count is 0 the
transform fails when the stripped text is empty, and when the stripped text
contains the exponent marker (such text is never a valid decimal); but a
non-empty zero-digit input without an exponent marker succeeds, returning
the all-zero string "0000000000000". -/
theorem C1_amended (s : Str) :
    (strippedText (some s) = [] →
      normalize_corporate_number (some s) = .error ("corporate number is empty".data)) ∧
    (strippedText (some s) ≠ [] →
      ((strippedText (some s)).filter isDigitChar).length = 0 →
      ('e' ∈ (strippedText (some s)).map toLowerChar →
        isErr (normalize_corporate_number (some s)) = true) ∧
      ('e' ∉ (strippedText (some s)).map toLowerChar →
        normalize_corporate_number (some s) = .ok (List.replicate 13 '0'))) := by
  constructor
  · intro he
    unfold normalize_corporate_number
    simp only []
    rw [if_pos he]
  · intro hne h0
    have hnod : ∀ c ∈ strippedText (some s), isDigitChar c = false := by
      intro c hc
      by_contra hcon
      have hmem : c ∈ (strippedText (some s)).filter isDigitChar :=
        List.mem_filter.mpr ⟨hc, by revert hcon; cases isDigitChar c <;> simp⟩
      rw [List.length_eq_zero.mp h0] at hmem
      simp at hmem
    constructor
    · intro hE
      unfold normalize_corporate_number
      simp only []
      rw [if_neg hne, if_pos hE, decParse_none_of_no_digit _ hnod]
      rfl
    · intro hE
      unfold normalize_corporate_number
      simp only []
      rw [if_neg hne, if_neg hE, List.length_eq_zero.mp h0]
      rfl

/-- Claim C1, witness for the amended theorem at concrete inputs: the empty
string fails, and "xyz" succeeds with the all-zero string. -/
theorem C1_amended_witness :
    normalize_corporate_number (some ("".data)) = .error ("corporate number is empty".data) ∧
    normalize_corporate_number (some ("xyz".data)) = .ok (List.replicate 13 '0') :=
  ⟨(C1_amended ("".data)).1 (by decide),
   ((C1_amended ("xyz".data)).2 (by decide) (by decide)).2 (by decide)⟩

theorem strippedText_sandwich (w1 body w2 : Str)
    (hw1 : ∀ c ∈ w1, isSpaceChar c = true) (hw2 : ∀ c ∈ w2, isSpaceChar c = true)
    (hbody : ∀ c ∈ body, isDigitChar c = true ∨ c = '-') :
    strippedText (some (w1 ++ body ++ w2)) = body.filter isDigitChar := by
  have hbs : ∀ c ∈ body, isSpaceChar c = false := by
    intro c hc
    rcases hbody c hc with hd | hd
    · exact isSpaceChar_of_digit c hd
    · rw [hd]; rfl
  unfold strippedText pyStrip
  simp only [Option.getD_some]
  rw [pyStripBy_sandwich isSpaceChar w1 body w2 hw1 hw2 hbs]
  apply List.filter_congr
  intro c hc
  rcases hbody c hc with hd | hd
  · have hnh := digit_ne_char c hd '-' (Or.inl (by decide))
    simp [hnh, hd]
  · rw [hd]; rfl

/-- Claim C2: an input of 1 to 13 decimal digits, possibly interspersed with
hyphens and surrounded by whitespace, normalizes to exactly those digits
left-zero-padded to 13 characters; "1234567890123" is unchanged and "123"
becomes "0000000000123"; and an exponent-free input with more than 13
digits fails. -/
theorem C2_padded_digits :
    (∀ w1 body w2 : Str,
      (∀ c ∈ w1, isSpaceChar c = true) → (∀ c ∈ w2, isSpaceChar c = true) →
      (∀ c ∈ body, isDigitChar c = true ∨ c = '-') →
      1 ≤ (body.filter isDigitChar).length → (body.filter isDigitChar).length ≤ 13 →
      normalize_corporate_number (some (w1 ++ body ++ w2)) =
        .ok (List.replicate (13 - (body.filter isDigitChar).length) '0' ++
          body.filter isDigitChar)) ∧
    normalize_corporate_number (some ("1234567890123".data)) = .ok ("1234567890123".data) ∧
    normalize_corporate_number (some ("123".data)) = .ok ("0000000000123".data) ∧
    (∀ s : Str, 'e' ∉ (strippedText (some s)).map toLowerChar →
      13 < ((strippedText (some s)).filter isDigitChar).length →
      isErr (normalize_corporate_number (some s)) = true) := by
  refine ⟨?_, by decide, by decide, ?_⟩
  · intro w1 body w2 hw1 hw2 hbody h1 h13
    have hst := strippedText_sandwich w1 body w2 hw1 hw2 hbody
    have hdig : ∀ c ∈ body.filter isDigitChar, isDigitChar c = true :=
      fun c hc => List.of_mem_filter hc
    have hne : body.filter isDigitChar ≠ [] := by
      intro he
      rw [he] at h1
      simp at h1
    unfold normalize_corporate_number
    simp only []
    rw [hst, if_neg hne, if_neg (e_not_mem_map_toLower _ hdig),
      List.filter_eq_self.mpr hdig]
    simp only []
    rw [zfill_of_digits 13 _ hne hdig]
    have hlen : (List.replicate (13 - (body.filter isDigitChar).length) '0' ++
        body.filter isDigitChar).length = 13 := by
      simp only [List.length_append, List.length_replicate]
      omega
    rw [if_pos hlen]
  · intro s hnotE hlen
    have hne : strippedText (some s) ≠ [] := by
      intro he
      rw [he] at hlen
      simp at hlen
    have hdig : ∀ c ∈ (strippedText (some s)).filter isDigitChar, isDigitChar c = true :=
      fun c hc => List.of_mem_filter hc
    have hne2 : (strippedText (some s)).filter isDigitChar ≠ [] := by
      intro he
      rw [he] at hlen
      simp at hlen
    unfold normalize_corporate_number
    simp only []
    rw [if_neg hne, if_neg hnotE]
    simp only []
    rw [zfill_of_digits 13 _ hne2 hdig]
    have h0 : 13 - ((strippedText (some s)).filter isDigitChar).length = 0 := by omega
    rw [h0]
    have hll : ¬(List.replicate 0 '0' ++ (strippedText (some s)).filter isDigitChar).length = 13 := by
      simp only [List.replicate, List.nil_append]
      omega
    rw [if_neg hll]
    rfl

/-- Claim C2, witness: the universally quantified parts applied at
whitespace " 12-3 " (digits 123, padded) and at the 14-digit input. -/
theorem C2_padded_digits_witness :
    normalize_corporate_number (some ((" ".data) ++ ("12-3".data) ++ (" ".data))) =
      .ok (List.replicate 10 '0' ++ ("123".data)) ∧
    isErr (normalize_corporate_number (some ("12345678901234".data))) = true :=
  ⟨by
    have h := C2_padded_digits.1 (" ".data) ("12-3".data) (" ".data)
      (by decide) (by decide) (by decide) (by decide) (by decide)
    simpa using h,
   C2_padded_digits.2.2.2 ("12345678901234".data) (by decide) (by decide)⟩

/-- Claim C7: inputs containing a case-insensitive exponent marker are
parsed as exact decimals and rendered to a plain digit string (no exponent,
decimal point removed) before the 13-character padding and length check:
"1.234567890123E12" yields "1234567890123"; text with an exponent marker
that is not a valid decimal fails; and for a valid decimal the result is
the padded rendering exactly when its padded length is 13, an error
otherwise. -/
theorem C7_exponent_marker :
    normalize_corporate_number (some ("1.234567890123E12".data)) = .ok ("1234567890123".data) ∧
    (∀ s : Str, 'e' ∈ (strippedText (some s)).map toLowerChar →
      decParse (strippedText (some s)) = none →
      isErr (normalize_corporate_number (some s)) = true) ∧
    (∀ (s : Str) (d : Dec), 'e' ∈ (strippedText (some s)).map toLowerChar →
      decParse (strippedText (some s)) = some d →
      ((zfill 13 ((formatF d).filter (fun c => c ≠ '.'))).length = 13 →
        normalize_corporate_number (some s) =
          .ok (zfill 13 ((formatF d).filter (fun c => c ≠ '.')))) ∧
      ((zfill 13 ((formatF d).filter (fun c => c ≠ '.'))).length ≠ 13 →
        isErr (normalize_corporate_number (some s)) = true)) := by
  refine ⟨by decide, ?_, ?_⟩
  · intro s hE hparse
    have hne : strippedText (some s) ≠ [] := by
      intro he
      rw [he] at hE
      simp at hE
    unfold normalize_corporate_number
    simp only []
    rw [if_neg hne, if_pos hE, hparse]
    rfl
  · intro s d hE hparse
    have hne : strippedText (some s) ≠ [] := by
      intro he
      rw [he] at hE
      simp at hE
    constructor
    · intro hlen
      unfold normalize_corporate_number
      simp only []
      rw [if_neg hne, if_pos hE, hparse]
      simp only []
      rw [if_pos hlen]
    · intro hlen
      unfold normalize_corporate_number
      simp only []
      rw [if_neg hne, if_pos hE, hparse]
      simp only []
      rw [if_neg hlen]
      rfl

/-- Claim C7, witness: the quantified parts applied at "1x2e" (invalid
decimal with exponent marker) and at "9e12" (valid decimal whose plain
rendering pads to 13 digits). -/
theorem C7_exponent_marker_witness :
    isErr (normalize_corporate_number (some ("1x2e".data))) = true ∧
    normalize_corporate_number (some ("9e12".data)) =
      .ok (zfill 13 ((formatF ⟨false, 9, 12⟩).filter (fun c => c ≠ '.'))) :=
  ⟨C7_exponent_marker.2.1 ("1x2e".data) (by decide) (by decide),
   (C7_exponent_marker.2.2 ("9e12".data) ⟨false, 9, 12⟩ (by decide) (by decide)).1 (by decide)⟩

/-- Claim C10: the corporate-number transform is idempotent on its
successful outputs: if it succeeds with result r, then running it again on
r succeeds and returns r unchanged. -/
theorem C10_idempotent (v : Option Str) (r : Str)
    (h : normalize_corporate_number v = .ok r) :
    normalize_corporate_number (some r) = .ok r := by
  obtain ⟨hlen, hdig⟩ := normalize_ok_shape v r h
  have hne : r ≠ [] := by
    intro he
    rw [he] at hlen
    simp at hlen
  have hst : strippedText (some r) = r := by
    unfold strippedText pyStrip
    simp only [Option.getD_some]
    rw [pyStripBy_eq_self isSpaceChar r (fun c hc => isSpaceChar_of_digit c (hdig c hc))]
    apply List.filter_eq_self.mpr
    intro c hc
    have hnh := digit_ne_char c (hdig c hc) '-' (Or.inl (by decide))
    simp [hnh]
  unfold normalize_corporate_number
  simp only []
  rw [hst, if_neg hne, if_neg (e_not_mem_map_toLower r hdig), List.filter_eq_self.mpr hdig]
  simp only []
  rw [zfill_of_digits 13 r hne hdig]
  have h0 : 13 - r.length = 0 := by omega
  rw [h0]
  have hl2 : (List.replicate 0 '0' ++ r).length = 13 := by
    simp only [List.replicate, List.nil_append]
    exact hlen
  rw [if_pos hl2]
  simp only [List.replicate, List.nil_append]

/-- Claim C10, witness: idempotence applied to the successful run on
"123", whose result is "0000000000123". -/
theorem C10_idempotent_witness :
    normalize_corporate_number (some ("0000000000123".data)) = .ok ("0000000000123".data) :=
  C10_idempotent (some ("123".data)) ("0000000000123".data) (by decide)

/-! ### Claims C4, C5, C9: filter, header policy, alias resolution -/

/-- Claim C4: the corporation filter accepts "301001" against codes
301-305 (comparing the first 3 extracted digits), rejects "999", rejects a
blank type value whatever the accepted set is, and when the configured
accepted-code set is empty the filter stage of prepare_records passes every
row unconditionally. -/
theorem C4_corporation_filter :
    row_is_general_corporation [(("kind".data), some ("301001".data))] ("kind".data)
      (["301".data, "302".data, "303".data, "304".data, "305".data]) = true ∧
    row_is_general_corporation [(("kind".data), some ("999".data))] ("kind".data)
      (["301".data, "302".data, "303".data, "304".data, "305".data]) = false ∧
    (∀ (row : Row) (tk : Str) (codes : List Str),
      pyStrip (rowGetStr row tk) = [] →
      row_is_general_corporation row tk codes = false) ∧
    (∀ (rows : List Row) (tc : Str) (codes : List Str) (cc nc : Str)
      (out : List (List Value)),
      allowedCodes codes = [] →
      prepare_records rows tc codes cc nc = .ok out →
      out = rows.filterMap (buildRecord MEIREI_COLUMNS)) := by
  refine ⟨by decide, by decide, ?_, ?_⟩
  · intro row tk codes hblank
    unfold row_is_general_corporation
    simp only []
    rw [if_pos hblank]
  · intro rows tc codes cc nc out hempty hok
    unfold prepare_records at hok
    simp only [] at hok
    rw [hempty] at hok
    split at hok
    · exact absurd hok (by simp)
    · split at hok
      · exact absurd hok (by simp)
      · split at hok
        · exact absurd hok (by simp)
        · rw [Except.ok.injEq] at hok
          rw [← hok]
          simp

/-- Claim C4, witness: the blank-type clause at a concrete whitespace row,
and the empty-accepted-set clause at a concrete one-row run. -/
theorem C4_corporation_filter_witness :
    row_is_general_corporation [(("kind".data), some ("  ".data))] ("kind".data)
      (["301".data]) = false ∧
    ([([(("corporateNumber".data), some ("1".data)), (("kind".data), some ("999".data))] : Row)].filterMap
        (buildRecord MEIREI_COLUMNS) =
      [([(("corporateNumber".data), some ("1".data)), (("kind".data), some ("999".data))] : Row)].filterMap
        (buildRecord MEIREI_COLUMNS)) :=
  ⟨C4_corporation_filter.2.2.1 [(("kind".data), some ("  ".data))] ("kind".data)
      (["301".data]) (by decide),
   C4_corporation_filter.2.2.2
      [[(("corporateNumber".data), some ("1".data)), (("kind".data), some ("999".data))]]
      ("kind".data) [] ("corporateNumber".data) ("name".data) _ (by decide) (by decide)⟩

/-- Claim C5, counterexample: on a first row whose first cell is empty, the
claimed policy (empty or non-numeric first cell means header) says the file
has a header row, but row_looks_like_header returns false, so the file is
treated as headerless. -/
theorem C5_counterexample :
    specHeaderPolicy [("".data)] = true ∧ row_looks_like_header [("".data)] = false := by
  decide

/-- Claim C5, amended: the file is treated as having a header row exactly
when the first physical row is non-empty AND its first cell, after
stripping the byte-order mark, whitespace, and quoting, is non-empty and
not purely numeric; an empty first cell means headerless, not header. -/
theorem C5_amended (first_row : List Str) :
    row_looks_like_header first_row = true ↔
      ∃ c0 rest, first_row = c0 :: rest ∧ cleanFirstCell c0 ≠ [] ∧
        ¬(pyIsDigit (cleanFirstCell c0) = true) := by
  constructor
  · intro h
    rcases first_row with _ | ⟨c0, rest⟩
    · simp [row_looks_like_header] at h
    · refine ⟨c0, rest, rfl, ?_⟩
      unfold row_looks_like_header at h
      simp only [] at h
      by_cases hc : cleanFirstCell c0 = []
      · rw [if_pos hc] at h
        simp at h
      · rw [if_neg hc] at h
        simp only [Bool.not_eq_true'] at h
        exact ⟨hc, by rw [h]; simp⟩
  · rintro ⟨c0, rest, rfl, h1, h2⟩
    unfold row_looks_like_header
    simp only []
    rw [if_neg h1]
    simp only [Bool.not_eq_true'] at *
    rw [Bool.not_eq_true] at *
    simp [h2]

/-- Claim C5, witness: the amended characterization applied at a concrete
textual header cell. -/
theorem C5_amended_witness : row_looks_like_header [("corporateNumber".data)] = true :=
  (C5_amended [("corporateNumber".data)]).mpr
    ⟨("corporateNumber".data), [], rfl, by decide, by decide⟩

/-- Claim C9: every registry entry's machine-style key and every declared
alias resolve to that entry's canonical key; exact lookup is tried first
and case-insensitive lookup second; a name matching neither raises. -/
theorem C9_alias_resolution :
    (∀ c ∈ MEIREI_COLUMNS,
      resolve_column_key c.csv_field = .ok c.csv_field ∧
      ∀ a ∈ c.aliases, resolve_column_key a = .ok c.csv_field) ∧
    (∀ name m, truthyGet COLUMN_NAME_LOOKUP (pyStrip name) = some m →
      resolve_column_key name = .ok m) ∧
    (∀ name m, truthyGet COLUMN_NAME_LOOKUP (pyStrip name) = none →
      truthyGet COLUMN_NAME_LOOKUP ((pyStrip name).map toLowerChar) = some m →
      resolve_column_key name = .ok m) ∧
    (∀ name, truthyGet COLUMN_NAME_LOOKUP (pyStrip name) = none →
      truthyGet COLUMN_NAME_LOOKUP ((pyStrip name).map toLowerChar) = none →
      isErr (resolve_column_key name) = true) := by
  refine ⟨by decide, ?_, ?_, ?_⟩
  · intro name m h
    by_cases hk : pyStrip name = []
    · rw [hk] at h
      have hnone : truthyGet COLUMN_NAME_LOOKUP [] = none := by decide
      rw [hnone] at h
      exact absurd h (by simp)
    · unfold resolve_column_key
      simp only []
      rw [if_neg hk, h]
  · intro name m h1 h2
    by_cases hk : pyStrip name = []
    · rw [hk] at h2
      have hnone : truthyGet COLUMN_NAME_LOOKUP (List.map toLowerChar []) = none := by decide
      rw [hnone] at h2
      exact absurd h2 (by simp)
    · unfold resolve_column_key
      simp only []
      rw [if_neg hk, h1, h2]
  · intro name h1 h2
    by_cases hk : pyStrip name = []
    · unfold resolve_column_key
      simp only []
      rw [if_pos hk]
      rfl
    · unfold resolve_column_key
      simp only []
      rw [if_neg hk, h1, h2]
      rfl

/-- Claim C9, witness: the lookup clauses applied at the native-language
label for the corporate number, at its lowercased machine key, and at an
unknown name. -/
theorem C9_alias_resolution_witness :
    resolve_column_key ("法人番号".data) = .ok ("corporateNumber".data) ∧
    resolve_column_key ("CorporateNumber".data) = .ok ("corporateNumber".data) ∧
    isErr (resolve_column_key ("bogus".data)) = true :=
  ⟨C9_alias_resolution.2.1 ("法人番号".data) ("corporateNumber".data) (by decide),
   C9_alias_resolution.2.2.1 ("CorporateNumber".data) ("corporateNumber".data)
     (by decide) (by decide),
   C9_alias_resolution.2.2.2 ("bogus".data) (by decide) (by decide)⟩

/-! ### Claim C3: complete records or nothing -/

theorem transformAll_length (cols : List ColumnDefinition) (row : Row) :
    ∀ l : List Value, transformAll cols row = .ok l → l.length = cols.length := by
  induction cols with
  | nil =>
    intro l h
    unfold transformAll at h
    rw [Except.ok.injEq] at h
    rw [← h]
    rfl
  | cons c rest ih =>
    intro l h
    unfold transformAll at h
    split at h
    · exact absurd h (by simp)
    · split at h
      · exact absurd h (by simp)
      next vs hvs =>
        rw [Except.ok.injEq] at h
        rw [← h]
        simp only [List.length_cons]
        rw [ih vs hvs]

theorem transformAll_cons (c : ColumnDefinition) (rest : List ColumnDefinition) (row : Row)
    (l : List Value) (h : transformAll (c :: rest) row = .ok l) :
    ∃ v vs, l = v :: vs ∧ c.transform (rowGet row c.csv_field) = .ok v ∧
      transformAll rest row = .ok vs := by
  unfold transformAll at h
  split at h
  · exact absurd h (by simp)
  next v hv =>
    split at h
    · exact absurd h (by simp)
    next vs hvs =>
      rw [Except.ok.injEq] at h
      exact ⟨v, vs, h.symm, hv, hvs⟩

theorem transformAll_error_exists (cols : List ColumnDefinition) (row : Row)
    (h : ∃ c ∈ cols, isErr (c.transform (rowGet row c.csv_field)) = true) :
    ∃ e, transformAll cols row = .error e := by
  induction cols with
  | nil =>
    rcases h with ⟨c, hc, _⟩
    simp at hc
  | cons c0 rest ih =>
    rcases h with ⟨c, hc, herr⟩
    rcases List.mem_cons.mp hc with rfl | hmem
    · cases ht : c.transform (rowGet row c.csv_field) with
      | error e => exact ⟨e, by unfold transformAll; rw [ht]⟩
      | ok v =>
        rw [ht] at herr
        simp [isErr] at herr
    · cases ht : c0.transform (rowGet row c0.csv_field) with
      | error e => exact ⟨e, by unfold transformAll; rw [ht]⟩
      | ok v =>
        obtain ⟨e, he⟩ := ih ⟨c, hmem, herr⟩
        exact ⟨e, by unfold transformAll; rw [ht, he]⟩

/-- Claim C3, counterexample to the field count: the registry declares 30
fields, not 36, and an accepted row yields a 30-tuple. -/
theorem C3_counterexample :
    MEIREI_COLUMNS.length = 30 ∧ (30 : Nat) ≠ 36 ∧
    (prepare_records [[(("corporateNumber".data), some ("1234567890123".data)),
        (("kind".data), some ("301".data))]] ("kind".data)
        (["301".data, "302".data, "303".data, "304".data, "305".data])
        ("corporateNumber".data) ("name".data)).toOption.map
      (fun l => l.map List.length) = some [30] := by
  decide

/-- Claim C3, amended: every record yielded by prepare_records is a
complete tuple whose length equals the registry size, which is 30 (not 36),
with position 1 (the corporate-number column) holding a 13-digit string;
and a row on which any single field transform raises contributes no record
at all. -/
theorem C3_record_shape :
    (∀ (rows : List Row) (tc : Str) (codes : List Str) (cc nc : Str)
      (out : List (List Value)) (rec : List Value),
      prepare_records rows tc codes cc nc = .ok out → rec ∈ out →
      rec.length = MEIREI_COLUMNS.length ∧ MEIREI_COLUMNS.length = 30 ∧
      ∃ s, rec.get? 1 = some (.str s) ∧ s.length = 13 ∧ ∀ c ∈ s, isDigitChar c = true) ∧
    (∀ row : Row,
      (∃ c ∈ MEIREI_COLUMNS, isErr (c.transform (rowGet row c.csv_field)) = true) →
      buildRecord MEIREI_COLUMNS row = none) := by
  constructor
  · intro rows tc codes cc nc out rec hok hmem
    unfold prepare_records at hok
    simp only [] at hok
    split at hok
    · exact absurd hok (by simp)
    · split at hok
      · exact absurd hok (by simp)
      · split at hok
        · exact absurd hok (by simp)
        · rw [Except.ok.injEq] at hok
          rw [← hok] at hmem
          rcases List.mem_filterMap.mp hmem with ⟨row, _, hstep⟩
          have hbuild : buildRecord MEIREI_COLUMNS row = some rec := by
            split at hstep
            · exact absurd hstep (by simp)
            · exact hstep
          unfold buildRecord at hbuild
          cases hta : transformAll MEIREI_COLUMNS row with
          | error e =>
            rw [hta] at hbuild
            exact absurd hbuild (by simp [Except.toOption])
          | ok l =>
            rw [hta] at hbuild
            have hl : l = rec := by simpa [Except.toOption] using hbuild
            subst hl
            refine ⟨transformAll_length _ row l hta, by decide, ?_⟩
            obtain ⟨v0, l1, hl0, _, h1⟩ := transformAll_cons _ _ row _ hta
            obtain ⟨v1, l2, hl1, hv1, _⟩ := transformAll_cons _ _ row _ h1
            have hv1' : tCorp (rowGet row ("corporateNumber".data)) = .ok v1 := hv1
            unfold tCorp at hv1'
            cases hn : normalize_corporate_number (rowGet row ("corporateNumber".data)) with
            | error e =>
              rw [hn] at hv1'
              exact absurd hv1' (by simp [Except.map])
            | ok s =>
              rw [hn] at hv1'
              have hvs : Value.str s = v1 := by simpa [Except.map] using hv1'
              obtain ⟨hlen, hdig⟩ := normalize_ok_shape _ s hn
              refine ⟨s, ?_, hlen, hdig⟩
              rw [hl0, hl1, ← hvs]
              rfl
  · intro row h
    obtain ⟨e, he⟩ := transformAll_error_exists MEIREI_COLUMNS row h
    unfold buildRecord
    rw [he]
    rfl

/-- Claim C3, witness: the shape statement applied to a concrete one-row
run whose record has length 30 and a 13-digit corporate number. -/
theorem C3_record_shape_witness :
    ((buildRecord MEIREI_COLUMNS
        [(("corporateNumber".data), some ("1234567890123".data)),
         (("kind".data), some ("301".data))]).getD []).length = MEIREI_COLUMNS.length :=
  (C3_record_shape.1
    [[(("corporateNumber".data), some ("1234567890123".data)),
      (("kind".data), some ("301".data))]]
    ("kind".data) (["301".data, "302".data, "303".data, "304".data, "305".data])
    ("corporateNumber".data) ("name".data)
    ([[(("corporateNumber".data), some ("1234567890123".data)),
       (("kind".data), some ("301".data))]].filterMap (buildRecord MEIREI_COLUMNS))
    ((buildRecord MEIREI_COLUMNS
        [(("corporateNumber".data), some ("1234567890123".data)),
         (("kind".data), some ("301".data))]).getD [])
    (by decide) (by decide)).1

/-! ### Claim C6: batch flush failure and transaction scope -/

theorem execute_batch_ok {α : Type} (fails : Nat → Bool) (i : Nat) (batch : List α)
    (db db2 : DBState α) (h : execute_batch fails i batch db = .ok db2) :
    db2.committed = db.committed ∧ db2.pending = db.pending ++ batch := by
  unfold execute_batch at h
  split at h
  · exact absurd h (by simp)
  · rw [Except.ok.injEq] at h
    rw [← h]
    exact ⟨rfl, rfl⟩

theorem insertLoop_error {α : Type} (fails : Nat → Bool) (bs : Nat) :
    ∀ (records batch : List α) (idx total : Nat) (db db2 : DBState α),
    insertLoop fails bs records batch idx total db = .error db2 →
    db2.committed = db.committed ∧ db2.pending = [] := by
  intro records
  induction records with
  | nil =>
    intro batch idx total db db2 h
    exact absurd h (by simp [insertLoop])
  | cons r rest ih =>
    intro batch idx total db db2 h
    unfold insertLoop at h
    simp only [] at h
    split at h
    · split at h
      next heq =>
        rw [Except.error.injEq] at h
        rw [← h]
        exact ⟨rfl, rfl⟩
      next db3 heq =>
        obtain ⟨h1, h2⟩ := ih [] (idx + 1) (total + (batch ++ [r]).length) db3 db2 h
        obtain ⟨h3, _⟩ := execute_batch_ok fails idx (batch ++ [r]) db db3 heq
        exact ⟨h1.trans h3, h2⟩
    · exact ih (batch ++ [r]) idx total db db2 h

theorem insertLoop_ok {α : Type} (fails : Nat → Bool) (bs : Nat) :
    ∀ (records batch : List α) (idx total : Nat) (db db2 : DBState α)
      (batch2 : List α) (idx2 total2 : Nat),
    insertLoop fails bs records batch idx total db = .ok (db2, batch2, idx2, total2) →
    db2.committed = db.committed ∧
    db2.pending ++ batch2 = db.pending ++ batch ++ records ∧
    total2 + batch2.length = total + batch.length + records.length := by
  intro records
  induction records with
  | nil =>
    intro batch idx total db db2 batch2 idx2 total2 h
    unfold insertLoop at h
    rw [Except.ok.injEq, Prod.mk.injEq, Prod.mk.injEq, Prod.mk.injEq] at h
    obtain ⟨h1, h2, _, h4⟩ := h
    rw [← h1, ← h2, ← h4]
    simp
  | cons r rest ih =>
    intro batch idx total db db2 batch2 idx2 total2 h
    unfold insertLoop at h
    simp only [] at h
    split at h
    · split at h
      · exact absurd h (by simp)
      next db3 heq =>
        obtain ⟨h1, h2, h3⟩ := ih [] (idx + 1) (total + (batch ++ [r]).length) db3
          db2 batch2 idx2 total2 h
        obtain ⟨h4, h5⟩ := execute_batch_ok fails idx (batch ++ [r]) db db3 heq
        simp only [List.length_append, List.length_cons, List.length_nil,
          List.append_nil] at h3
        refine ⟨h1.trans h4, ?_, ?_⟩
        · rw [h2, h5]
          simp
        · simp only [List.length_cons]
          omega
    · obtain ⟨h1, h2, h3⟩ := ih (batch ++ [r]) idx total db db2 batch2 idx2 total2 h
      simp only [List.length_append, List.length_cons, List.length_nil] at h3
      refine ⟨h1, ?_, ?_⟩
      · rw [h2]
        simp
      · simp only [List.length_cons]
        omega

/-- Claim C6, counterexample: batch size 1, records [0, 1], and a store
that fails the second flush (the first flush succeeds).  The run aborts
with an error, but the state shows nothing committed: the first batch's
records are rolled back too, because the whole run is one transaction
committed only at the end; there is no per-batch transaction boundary. -/
theorem C6_counterexample :
    (fun i => decide (i = 1)) 0 = false ∧
    insert_records (fun i => decide (i = 1)) 1 [0, 1] (⟨[], []⟩ : DBState Nat) =
      .error ⟨[], []⟩ := by
  decide

/-- Claim C6, amended: on a data-store error during any flush the
transaction is rolled back and the error re-raised, so the run aborts; but
since every batch of the run shares one transaction committed only at
normal exit, nothing from the run remains committed — earlier flushed
batches are rolled back along with the failing one.  On a fully successful
run the returned count equals the total number of records, which all
become committed. -/
theorem C6_batch_failure :
    (∀ (α : Type) (fails : Nat → Bool) (bs : Nat) (records : List α) (db db2 : DBState α),
      insert_records fails bs records db = .error db2 →
      db2.committed = db.committed ∧ db2.pending = []) ∧
    (∀ (α : Type) (fails : Nat → Bool) (bs : Nat) (records : List α) (db db2 : DBState α)
      (n : Nat),
      db.pending = [] →
      insert_records fails bs records db = .ok (db2, n) →
      n = records.length ∧ db2.committed = db.committed ++ records ∧ db2.pending = []) := by
  constructor
  · intro α fails bs records db db2 h
    unfold insert_records at h
    split at h
    next db3 heq =>
      obtain ⟨h1, _⟩ := insertLoop_error fails bs records [] 0 0 db db3 heq
      rw [Except.error.injEq] at h
      rw [← h]
      exact ⟨h1, rfl⟩
    next db3 batch idx total heq =>
      split at h
      · exact absurd h (by simp)
      · split at h
        next heq2 =>
          obtain ⟨h1, _, _⟩ := insertLoop_ok fails bs records [] 0 0 db db3 batch idx total heq
          rw [Except.error.injEq] at h
          rw [← h]
          exact ⟨h1, rfl⟩
        · exact absurd h (by simp)
  · intro α fails bs records db db2 n hpend h
    unfold insert_records at h
    split at h
    · exact absurd h (by simp)
    next db3 batch idx total heq =>
      obtain ⟨h1, h2, h3⟩ := insertLoop_ok fails bs records [] 0 0 db db3 batch idx total heq
      rw [hpend] at h2
      simp only [List.nil_append] at h2
      split at h
      next hemp =>
        rw [List.isEmpty_iff] at hemp
        rw [hemp] at h2 h3
        simp only [List.append_nil, List.length_nil] at h2 h3
        rw [Except.ok.injEq, Prod.mk.injEq] at h
        obtain ⟨hdb, hn⟩ := h
        rw [← hdb, ← hn]
        unfold commit
        rw [h1, h2]
        refine ⟨by omega, rfl, rfl⟩
      next hemp =>
        split at h
        · exact absurd h (by simp)
        next db4 heq2 =>
          obtain ⟨h4, h5⟩ := execute_batch_ok fails idx batch db3 db4 heq2
          simp only [List.length_nil] at h3
          rw [Except.ok.injEq, Prod.mk.injEq] at h
          obtain ⟨hdb, hn⟩ := h
          rw [← hdb, ← hn]
          unfold commit
          rw [h4, h1, h5, h2]
          refine ⟨by omega, rfl, rfl⟩

/-- Claim C6, witness: the success clause applied to a concrete three
record run with batch size 2 and no failures. -/
theorem C6_batch_failure_witness :
    3 = [0, 1, 2].length ∧
    (⟨[0, 1, 2], []⟩ : DBState Nat).committed = [] ++ [0, 1, 2] ∧
    (⟨[0, 1, 2], []⟩ : DBState Nat).pending = [] :=
  C6_batch_failure.2 Nat (fun _ => false) 2 [0, 1, 2] ⟨[], []⟩ ⟨[0, 1, 2], []⟩ 3
    rfl (by decide)

/-! ### Claim C8: date round trips -/

theorem digitToChar_toNat (k : Nat) (h : k < 10) : (digitToChar k).toNat = 48 + k := by
  interval_cases k <;> rfl

theorem digitVal_digitToChar (k : Nat) (h : k < 10) : digitVal (digitToChar k) = k := by
  interval_cases k <;> rfl

theorem read4_pad4 (y : Nat) (hy : y ≤ 9999) (rest : Str) :
    read4Digits (pad4 y ++ rest) = some (y, rest) := by
  have h1 : y / 1000 < 10 := by omega
  have h2 : y / 100 % 10 < 10 := Nat.mod_lt _ (by omega)
  have h3 : y / 10 % 10 < 10 := Nat.mod_lt _ (by omega)
  have h4 : y % 10 < 10 := Nat.mod_lt _ (by omega)
  unfold pad4
  simp only [List.cons_append, List.nil_append]
  unfold read4Digits
  simp only [digitToChar_digit, Bool.and_self, if_true]
  rw [digitVal_digitToChar _ h1, digitVal_digitToChar _ h2,
    digitVal_digitToChar _ h3, digitVal_digitToChar _ h4]
  rw [Option.some_inj, Prod.mk.injEq]
  exact ⟨by omega, rfl⟩

theorem firstSome_head {α β : Type} (a : α) (l : List α) (k : α → Option β) (out : β)
    (h : k a = some out) : firstSome (a :: l) k = some out := by
  unfold firstSome
  rw [h]

theorem firstSome_monthAlts {β : Type} (m : Nat) (h1 : 1 ≤ m) (h2 : m ≤ 12)
    (rest : Str) (k : Nat × Str → Option β) (out : β) (hk : k (m, rest) = some out) :
    firstSome (monthAlts (pad2 m ++ rest)) k = some out := by
  interval_cases m <;> exact firstSome_head _ _ k out hk

theorem firstSome_dayAlts {β : Type} (d : Nat) (h1 : 1 ≤ d) (h2 : d ≤ 31)
    (rest : Str) (k : Nat × Str → Option β) (out : β) (hk : k (d, rest) = some out) :
    firstSome (dayAlts (pad2 d ++ rest)) k = some out := by
  interval_cases d <;> exact firstSome_head _ _ k out hk

theorem pad2_cons (n : Nat) (t : Str) :
    pad2 n ++ t = digitToChar (n / 10) :: (digitToChar (n % 10) :: t) := rfl

theorem sepStep_hit (c : Char) (t : Str) : sepStep (some c) (c :: t) = some t := by
  simp [sepStep, expectChar]

theorem matchYMD_format_sep (sep : Char) (y m d : Nat) (hy : y ≤ 9999)
    (hm1 : 1 ≤ m) (hm2 : m ≤ 12) (hd1 : 1 ≤ d) (hd2 : d ≤ 31) :
    matchYMD (some sep) (formatDate (some sep) ⟨y, m, d⟩) = some (y, m, d, []) := by
  unfold formatDate
  simp only [List.append_assoc, List.singleton_append, List.cons_append]
  unfold matchYMD
  rw [read4_pad4 y hy]
  simp only []
  rw [sepStep_hit]
  simp only []
  apply firstSome_monthAlts m hm1 hm2 (sep :: pad2 d) _ _
  simp only []
  rw [sepStep_hit]
  simp only []
  rw [show (pad2 d : Str) = pad2 d ++ [] from (List.append_nil _).symm]
  exact firstSome_dayAlts d hd1 hd2 [] _ _ rfl

theorem matchYMD_format_none (y m d : Nat) (hy : y ≤ 9999)
    (hm1 : 1 ≤ m) (hm2 : m ≤ 12) (hd1 : 1 ≤ d) (hd2 : d ≤ 31) :
    matchYMD none (formatDate none ⟨y, m, d⟩) = some (y, m, d, []) := by
  unfold formatDate
  simp only [List.append_assoc, List.nil_append, List.append_nil]
  unfold matchYMD
  rw [read4_pad4 y hy]
  simp only [sepStep]
  apply firstSome_monthAlts m hm1 hm2 (pad2 d) _ _
  simp only [sepStep]
  rw [show (pad2 d : Str) = pad2 d ++ [] from (List.append_nil _).symm]
  exact firstSome_dayAlts d hd1 hd2 [] _ _ rfl

theorem matchYMD_sep_mismatch (sep c : Char) (hne : c ≠ sep) (y : Nat) (hy : y ≤ 9999)
    (t : Str) : matchYMD (some sep) (pad4 y ++ (c :: t)) = none := by
  unfold matchYMD
  rw [read4_pad4 y hy]
  simp [sepStep, expectChar, hne]

theorem daysInMonth_le (y m : Nat) : daysInMonth y m ≤ 31 := by
  unfold daysInMonth
  split
  · split <;> omega
  · split <;> omega

theorem dateValid_bounds (y m d : Nat) (hv : dateValid y m d = true) :
    y ≤ 9999 ∧ 1 ≤ m ∧ m ≤ 12 ∧ 1 ≤ d ∧ d ≤ 31 := by
  have hdm := daysInMonth_le y m
  simp only [dateValid, Bool.and_eq_true, decide_eq_true_eq] at hv
  omega

theorem strptimeYMD_format_sep (sep : Char) (y m d : Nat) (hv : dateValid y m d = true) :
    strptimeYMD (some sep) (formatDate (some sep) ⟨y, m, d⟩) = some ⟨y, m, d⟩ := by
  obtain ⟨hy, hm1, hm2, hd1, hd2⟩ := dateValid_bounds y m d hv
  unfold strptimeYMD
  rw [matchYMD_format_sep sep y m d hy hm1 hm2 hd1 hd2]
  simp [hv]

theorem strptimeYMD_format_none (y m d : Nat) (hv : dateValid y m d = true) :
    strptimeYMD none (formatDate none ⟨y, m, d⟩) = some ⟨y, m, d⟩ := by
  obtain ⟨hy, hm1, hm2, hd1, hd2⟩ := dateValid_bounds y m d hv
  unfold strptimeYMD
  rw [matchYMD_format_none y m d hy hm1 hm2 hd1 hd2]
  simp [hv]

theorem strptimeYMD_wrong_sep (sep1 sep2 : Char) (hne : sep2 ≠ sep1) (y m d : Nat)
    (hy : y ≤ 9999) :
    strptimeYMD (some sep1) (formatDate (some sep2) ⟨y, m, d⟩) = none := by
  unfold formatDate
  simp only [List.append_assoc, List.singleton_append, List.cons_append]
  unfold strptimeYMD
  rw [matchYMD_sep_mismatch sep1 sep2 hne y hy]

theorem strptimeYMD_sep_on_plain (sep1 : Char) (hs : sep1.toNat < 48) (y m d : Nat)
    (hy : y ≤ 9999) :
    strptimeYMD (some sep1) (formatDate none ⟨y, m, d⟩) = none := by
  unfold formatDate
  simp only [List.append_assoc, List.nil_append, List.append_nil]
  rw [pad2_cons m (pad2 d)]
  unfold strptimeYMD
  rw [matchYMD_sep_mismatch sep1 (digitToChar (m / 10))
    (digit_ne_char _ (digitToChar_digit _) sep1 (Or.inl hs)) y hy]

theorem pad2_not_space (n : Nat) : ∀ c ∈ pad2 n, isSpaceChar c = false := by
  intro c hc
  simp only [pad2, List.mem_cons, List.mem_singleton, List.not_mem_nil, or_false] at hc
  rcases hc with h | h <;> (rw [h]; exact isSpaceChar_of_digit _ (digitToChar_digit _))

theorem pad4_not_space (n : Nat) : ∀ c ∈ pad4 n, isSpaceChar c = false := by
  intro c hc
  simp only [pad4, List.mem_cons, List.mem_singleton, List.not_mem_nil, or_false] at hc
  rcases hc with h | h | h | h <;> (rw [h]; exact isSpaceChar_of_digit _ (digitToChar_digit _))

theorem formatDate_not_space (sep : Option Char)
    (hs : ∀ c0, sep = some c0 → isSpaceChar c0 = false) (dt : Date) :
    ∀ c ∈ formatDate sep dt, isSpaceChar c = false := by
  intro c hc
  unfold formatDate at hc
  rcases sep with _ | c0
  · simp only [List.mem_append, List.not_mem_nil, or_false, false_or, or_assoc] at hc
    rcases hc with h | h | h
    · exact pad4_not_space dt.year c h
    · exact pad2_not_space dt.month c h
    · exact pad2_not_space dt.day c h
  · simp only [List.mem_append, List.mem_singleton, or_assoc] at hc
    rcases hc with h | h | h | h | h
    · exact pad4_not_space dt.year c h
    · rw [h]
      exact hs c0 rfl
    · exact pad2_not_space dt.month c h
    · rw [h]
      exact hs c0 rfl
    · exact pad2_not_space dt.day c h

theorem formatDate_ne_nil (sep : Option Char) (dt : Date) : formatDate sep dt ≠ [] := by
  unfold formatDate pad4
  simp

theorem pyStripBy_all_nil (p : Char → Bool) (s : Str) (h : ∀ c ∈ s, p c = true) :
    pyStripBy p s = [] := by
  unfold pyStripBy
  rw [dropWhile_all p s h]
  rfl

theorem pyStrip_eq_self (s : Str) (h : ∀ c ∈ s, isSpaceChar c = false) : pyStrip s = s :=
  pyStripBy_eq_self isSpaceChar s h

/-- Claim C8: each of the four supported patterns round-trips (a valid
calendar date rendered in that pattern, with zero-padded fields, parses
back to the same date), with "2020/04/01" and "20200401" both yielding
April 1, 2020; empty or whitespace-only input yields an absent value
without error; and text matched by none of the patterns fails. -/
theorem C8_date_round_trip :
    (∀ y m d : Nat, dateValid y m d = true →
      parse_date (some (formatDate (some '-') ⟨y, m, d⟩)) = .ok (some ⟨y, m, d⟩) ∧
      parse_date (some (formatDate (some '/') ⟨y, m, d⟩)) = .ok (some ⟨y, m, d⟩) ∧
      parse_date (some (formatDate (some '.') ⟨y, m, d⟩)) = .ok (some ⟨y, m, d⟩) ∧
      parse_date (some (formatDate none ⟨y, m, d⟩)) = .ok (some ⟨y, m, d⟩)) ∧
    parse_date (some ("2020/04/01".data)) = .ok (some ⟨2020, 4, 1⟩) ∧
    parse_date (some ("20200401".data)) = .ok (some ⟨2020, 4, 1⟩) ∧
    parse_date none = .ok none ∧
    (∀ s : Str, (∀ c ∈ s, isSpaceChar c = true) → parse_date (some s) = .ok none) ∧
    (∀ s : Str, pyStrip s ≠ [] →
      strptimeYMD (some '-') (pyStrip s) = none →
      strptimeYMD (some '/') (pyStrip s) = none →
      strptimeYMD (some '.') (pyStrip s) = none →
      strptimeYMD none (pyStrip s) = none →
      isErr (parse_date (some s)) = true) ∧
    isErr (parse_date (some ("not-a-date".data))) = true := by
  refine ⟨?_, by decide, by decide, by decide, ?_, ?_, by decide⟩
  · intro y m d hv
    obtain ⟨hy, _, _, _, _⟩ := dateValid_bounds y m d hv
    refine ⟨?_, ?_, ?_, ?_⟩
    · have hstrip := pyStrip_eq_self _
        (formatDate_not_space (some '-') (by intro c0 he; cases he; rfl) ⟨y, m, d⟩)
      unfold parse_date
      simp only [Option.getD_some]
      rw [hstrip, if_neg (formatDate_ne_nil (some '-') ⟨y, m, d⟩),
        strptimeYMD_format_sep '-' y m d hv]
    · have hstrip := pyStrip_eq_self _
        (formatDate_not_space (some '/') (by intro c0 he; cases he; rfl) ⟨y, m, d⟩)
      unfold parse_date
      simp only [Option.getD_some]
      rw [hstrip, if_neg (formatDate_ne_nil (some '/') ⟨y, m, d⟩),
        strptimeYMD_wrong_sep '-' '/' (by decide) y m d hy,
        strptimeYMD_format_sep '/' y m d hv]
    · have hstrip := pyStrip_eq_self _
        (formatDate_not_space (some '.') (by intro c0 he; cases he; rfl) ⟨y, m, d⟩)
      unfold parse_date
      simp only [Option.getD_some]
      rw [hstrip, if_neg (formatDate_ne_nil (some '.') ⟨y, m, d⟩),
        strptimeYMD_wrong_sep '-' '.' (by decide) y m d hy,
        strptimeYMD_wrong_sep '/' '.' (by decide) y m d hy,
        strptimeYMD_format_sep '.' y m d hv]
    · have hstrip := pyStrip_eq_self _
        (formatDate_not_space none (by intro c0 he; cases he) ⟨y, m, d⟩)
      unfold parse_date
      simp only [Option.getD_some]
      rw [hstrip, if_neg (formatDate_ne_nil none ⟨y, m, d⟩),
        strptimeYMD_sep_on_plain '-' (by decide) y m d hy,
        strptimeYMD_sep_on_plain '/' (by decide) y m d hy,
        strptimeYMD_sep_on_plain '.' (by decide) y m d hy,
        strptimeYMD_format_none y m d hv]
  · intro s hsp
    unfold parse_date
    simp only [Option.getD_some]
    rw [show pyStrip s = [] from pyStripBy_all_nil isSpaceChar s hsp, if_pos rfl]
  · intro s hne h1 h2 h3 h4
    unfold parse_date
    simp only [Option.getD_some]
    rw [if_neg hne, h1, h2, h3, h4]
    rfl

/-- Claim C8, witness: the round trip applied at April 1, 2020 in the
dashed pattern, and the no-pattern clause at concrete unparseable text. -/
theorem C8_date_round_trip_witness :
    parse_date (some (formatDate (some '-') ⟨2020, 4, 1⟩)) = .ok (some ⟨2020, 4, 1⟩) ∧
    isErr (parse_date (some ("nope".data))) = true :=
  ⟨(C8_date_round_trip.1 2020 4 1 (by decide)).1,
   C8_date_round_trip.2.2.2.2.2.1 ("nope".data) (by decide) (by decide) (by decide)
     (by decide) (by decide)⟩

end ImportCompanies
